import Mathlib

/-!
# Verification of `libc-compat/winsup`: `sync_compat.c` and `bcrypt_compat.c`

A shallow embedding of the two compatibility shims

* `WaitOnAddress` / `InitSyncCompat` (`src/libc-compat/winsup/sync_compat.c`),
* `ProcessPrng` / `InitBCryptCompat` (`src/libc-compat/winsup/bcrypt_compat.c`),

followed by theorems about them.

Conventions of the embedding.

* Machine integers are natural numbers. `DWORD` arithmetic is reduced modulo `2 ^ 32`
  explicitly where the C code can wrap (`GetTickCount() - start`).
* Everything the C code obtains from outside (the bytes at `Address`, the bytes at
  `CompareAddress`, the tick counter) is an oracle indexed by the number of the access: the
  memory may be written by other threads between two reads.
* The effects of a call (comparisons made, clock reads, `Sleep(1)` calls, `SetLastError`,
  calls through a resolved function pointer) are recorded in an explicit state that is threaded
  through the call.
* The `while (1)` loop of `WaitOnAddress` need not terminate; it is embedded with a bound on the
  number of iterations, and `none` means that the call is still polling after that many
  iterations.
-/

namespace SyncCompat

/-! ## Constants of the Windows SDK used by `sync_compat.c` -/

/-- Windows SDK constant `ERROR_INVALID_PARAMETER` (winerror.h). -/
def ERROR_INVALID_PARAMETER : Nat := 87

/-- Windows SDK constant `ERROR_TIMEOUT` (winerror.h). -/
def ERROR_TIMEOUT : Nat := 1460

/-- Windows SDK constant `INFINITE` (winbase.h), the `DWORD` value `0xFFFFFFFF`. -/
def INFINITE : Nat := 0xFFFFFFFF

/-- Number of values of a `DWORD`. -/
def DWORD_MOD : Nat := 2 ^ 32

/-! ## The environment of a call and its observable effects -/

/-- What one call of `WaitOnAddress` obtains from outside. `address n` and `compare n` are the
contents of the eight bytes at `Address` and at `CompareAddress` (as a little-endian number) at
the moment of the `n`-th comparison of the call, `tickCount n` is what the `n`-th call of
`GetTickCount()` returns. -/
structure Env where
  address : Nat → Nat
  compare : Nat → Nat
  tickCount : Nat → Nat

/-- Effects of a call of `WaitOnAddress` observed so far. -/
structure State where
  /-- Comparisons of `*Address` with `*CompareAddress` executed. -/
  compares : Nat
  /-- Calls of `GetTickCount()`. -/
  ticks : Nat
  /-- Calls of `Sleep(1)`. -/
  sleeps : Nat
  /-- Calls through the resolved native pointer `pWaitOnAddress`. -/
  nativeCalls : Nat
  /-- Code stored by `SetLastError`, `none` while the call has not stored any. -/
  lastError : Option Nat
deriving DecidableEq, Repr

/-- State at entry of a call. -/
def State.init : State :=
  { compares := 0, ticks := 0, sleeps := 0, nativeCalls := 0, lastError := none }

/-- Type `PFN_WaitOnAddress`: the native entry point, applied to
`Address`, `CompareAddress`, `AddressSize`, `dwMilliseconds`. -/
abbrev PFN_WaitOnAddress := Nat → Nat → Nat → Nat → Bool

/-- A read of `w` bytes (`*(volatile BYTE*)`, `WORD`, `DWORD`, `ULONGLONG`) from memory whose
eight bytes hold `mem`. -/
def load (w : Nat) (mem : Nat) : Nat := mem % 2 ^ (8 * w)

/-- The argument check of the fallback implementation (line 95):
`AddressSize > 8 || AddressSize == 0 || ((AddressSize - 1) & AddressSize) != 0`.
`AddressSize - 1` is evaluated only when `AddressSize` is not `0`, so it does not wrap. -/
def invalidSize (AddressSize : Nat) : Bool :=
  decide (AddressSize > 8) || AddressSize == 0 || ((AddressSize - 1) &&& AddressSize) != 0

/-- The `switch (AddressSize)` that compares the value at `Address` with the value at
`CompareAddress` (lines 102-119 and 129-140). There is no `default:` label: for a size that
matches no case `bSame` keeps its value. -/
def compareSwitch (AddressSize : Nat) (addr cmp : Nat) (bSame : Bool) : Bool :=
  match AddressSize with
  | 1 => decide (load 1 addr = load 1 cmp)
  | 2 => decide (load 2 addr = load 2 cmp)
  | 4 => decide (load 4 addr = load 4 cmp)
  | 8 => decide (load 8 addr = load 8 cmp)
  | _ => bSame

/-- The call `GetTickCount()`: a `DWORD`. -/
def GetTickCount (env : Env) (s : State) : Nat × State :=
  (env.tickCount s.ticks % DWORD_MOD, { s with ticks := s.ticks + 1 })

/-- The `DWORD` subtraction `now - start`. -/
def elapsedTicks (now start : Nat) : Nat :=
  (now + DWORD_MOD - start % DWORD_MOD) % DWORD_MOD

/-- Result of one pass through the body of `while (1)`. -/
inductive Step where
  | ret (result : Bool) (s : State)
  | continue (bSame : Bool) (s : State)
deriving DecidableEq, Repr

/-- One pass through the body of the `while (1)` loop (lines 128-152). -/
def loopBody (env : Env) (AddressSize dwMilliseconds start : Nat) (bSame : Bool) (s : State) :
    Step :=
  let bSame1 := compareSwitch AddressSize (env.address s.compares) (env.compare s.compares) bSame
  let s1 := { s with compares := s.compares + 1 }
  if !bSame1 then Step.ret true s1
  else if dwMilliseconds != INFINITE then
    let (now, s2) := GetTickCount env s1
    let elapsed := elapsedTicks now start
    if elapsed ≥ dwMilliseconds then
      Step.ret false { s2 with lastError := some ERROR_TIMEOUT }
    else Step.continue bSame1 { s2 with sleeps := s2.sleeps + 1 }
  else Step.continue bSame1 { s1 with sleeps := s1.sleeps + 1 }

/-- The `while (1)` loop, at most `fuel` passes; `none`: still polling after `fuel` passes. -/
def pollLoop (env : Env) (AddressSize dwMilliseconds start : Nat) :
    Nat → Bool → State → Option (Bool × State)
  | 0, _, _ => none
  | fuel + 1, bSame, s =>
    match loopBody env AddressSize dwMilliseconds start bSame s with
    | Step.ret r s1 => some (r, s1)
    | Step.continue b s1 => pollLoop env AddressSize dwMilliseconds start fuel b s1

/-- The exported `WaitOnAddress` (lines 80-154), after `InitSyncCompat()` has left the resolved
native entry point in `pWaitOnAddress` (`none` for `NULL`). `fuel` bounds the passes through the
polling loop. -/
def WaitOnAddress (pWaitOnAddress : Option PFN_WaitOnAddress) (env : Env) (fuel : Nat)
    (Address CompareAddress AddressSize dwMilliseconds : Nat) (s : State) :
    Option (Bool × State) :=
  match pWaitOnAddress with
  | some native =>
    some (native Address CompareAddress AddressSize dwMilliseconds,
      { s with nativeCalls := s.nativeCalls + 1 })
  | none =>
    if invalidSize AddressSize then
      some (false, { s with lastError := some ERROR_INVALID_PARAMETER })
    else
      let bSame := compareSwitch AddressSize (env.address s.compares) (env.compare s.compares) false
      let s1 := { s with compares := s.compares + 1 }
      if !bSame then some (true, s1)
      else
        let (start, s2) := GetTickCount env s1
        pollLoop env AddressSize dwMilliseconds start fuel bSame s2

/-! ## Notions used in the statements -/

/-- The widths `1`, `2`, `4`, `8`. -/
def ValidWidth (w : Nat) : Prop := w = 1 ∨ w = 2 ∨ w = 4 ∨ w = 8

instance (w : Nat) : Decidable (ValidWidth w) := by
  unfold ValidWidth; infer_instance

/-- The value read at `Address` at comparison `n` equals, at width `w`, the value read at
`CompareAddress` at that comparison. -/
def Unchanged (env : Env) (w n : Nat) : Prop :=
  load w (env.address n) = load w (env.compare n)

instance (env : Env) (w n : Nat) : Decidable (Unchanged env w n) := by
  unfold Unchanged; infer_instance

/-- The elapsed time computed at the clock read number `n`, for the start tick `start`. -/
def elapsedAt (env : Env) (start n : Nat) : Nat :=
  elapsedTicks (env.tickCount n % DWORD_MOD) start

/-- State of the polling loop after `n` passes that all went on to `Sleep(1)`. -/
def afterPolls (t : Nat) (s : State) (n : Nat) : State :=
  { s with compares := s.compares + n,
           ticks := s.ticks + (if t = INFINITE then 0 else n),
           sleeps := s.sleeps + n }

end SyncCompat

namespace BCryptCompat

/-! ## `bcrypt_compat.c` -/

/-- Windows SDK constant `ERROR_GEN_FAILURE` (winerror.h). -/
def ERROR_GEN_FAILURE : Nat := 31

/-- Windows SDK constant `ERROR_PROC_NOT_FOUND` (winerror.h). -/
def ERROR_PROC_NOT_FOUND : Nat := 127

/-- The local `ULONG maxChunk = 0x7FFFFFFF` (line 62). -/
def maxChunk : Nat := 0x7FFFFFFF

/-- Number of values of a `ULONG`. -/
def ULONG_MOD : Nat := 2 ^ 32

/-- Type `PFN_ProcessPrng`: the native entry point, applied to `pbData`, `cbData`. -/
abbrev PFN_ProcessPrng := Nat → Nat → Bool

/-- Type `PFN_RtlGenRandom`: the legacy provider, applied to `RandomBuffer` and
`RandomBufferLength`. The provider is an external, stateful facility: its first argument here is
the number of calls this request has already made to it, so that any pattern of outcomes can be
described. -/
abbrev PFN_RtlGenRandom := Nat → Nat → Nat → Bool

/-- Effects of a call of `ProcessPrng` observed so far. -/
structure State where
  /-- Calls of `pRtlGenRandom` issued, oldest first, each with its buffer pointer and length. -/
  calls : List (Nat × Nat)
  /-- Calls through the resolved native pointer `pProcessPrng`. -/
  nativeCalls : Nat
  /-- Code stored by `SetLastError`, `none` while the call has not stored any. -/
  lastError : Option Nat
deriving DecidableEq, Repr

/-- State at entry of a call. -/
def State.init : State := { calls := [], nativeCalls := 0, lastError := none }

/-- The loop `while (remaining > 0)` of the fallback (lines 66-75). -/
def fillLoop (pRtlGenRandom : PFN_RtlGenRandom) (remaining current : Nat) (s : State) :
    Bool × State :=
  if _h : remaining > 0 then
    let chunk := if remaining > maxChunk then maxChunk else remaining % ULONG_MOD
    let s1 := { s with calls := s.calls ++ [(current, chunk)] }
    if !pRtlGenRandom s.calls.length current chunk then
      (false, { s1 with lastError := some ERROR_GEN_FAILURE })
    else
      fillLoop pRtlGenRandom (remaining - chunk) (current + chunk) s1
  else (true, s)
termination_by remaining
decreasing_by
  simp only [maxChunk, ULONG_MOD]
  split <;> omega

/-- The exported `ProcessPrng` (lines 48-81), after `InitBCryptCompat()` has left the resolved
entry points in `pProcessPrng` and `pRtlGenRandom` (`none` for `NULL`). -/
def ProcessPrng (pProcessPrng : Option PFN_ProcessPrng) (pRtlGenRandom : Option PFN_RtlGenRandom)
    (pbData cbData : Nat) (s : State) : Bool × State :=
  match pProcessPrng with
  | some native => (native pbData cbData, { s with nativeCalls := s.nativeCalls + 1 })
  | none =>
    match pRtlGenRandom with
    | some rtl => fillLoop rtl cbData pbData s
    | none => (false, { s with lastError := some ERROR_PROC_NOT_FOUND })

/-! ### Concurrent first calls: `InitBCryptCompat`

Several threads enter `ProcessPrng` while `bInitialized` is still `0`. The threads are
interleaved at the granularity of their accesses to the three globals `bInitialized`,
`pProcessPrng`, `pRtlGenRandom`; every access is taken to be sequentially consistent, the
strongest memory model the C code could hope for. -/

/-- What the module lookup of the host finds: the result of
`GetProcAddress(LoadLibraryA("bcryptprimitives.dll"), "ProcessPrng")` and of
`GetProcAddress(LoadLibraryA("advapi32.dll"), "SystemFunction036")`, `none` when the library or
the symbol is absent. -/
structure Host where
  processPrng : Option PFN_ProcessPrng
  systemFunction036 : Option PFN_RtlGenRandom

/-- The file-scope variables of `bcrypt_compat.c` (lines 24-26), and the number of times the
probe (the body of the `if` in `InitBCryptCompat`) has been entered. -/
structure Globals where
  bInitialized : Nat
  pProcessPrng : Option PFN_ProcessPrng
  pRtlGenRandom : Option PFN_RtlGenRandom
  probes : Nat

/-- Globals of a cold process. -/
def Globals.cold : Globals :=
  { bInitialized := 0, pProcessPrng := none, pRtlGenRandom := none, probes := 0 }

/-- Program points of a thread executing `ProcessPrng(pbData, cbData)`. -/
inductive Pc where
  /-- At `InterlockedCompareExchange(&bInitialized, 1, 0)` (line 30). -/
  | cas
  /-- Won the exchange; at the store to `pProcessPrng` (lines 32-35). -/
  | probeNative
  /-- At `if (!pProcessPrng)` and the store to `pRtlGenRandom` (lines 38-43). -/
  | probeFallback
  /-- `InitBCryptCompat` has returned; at the read of `pProcessPrng` (line 55). -/
  | dispatch
  /-- Read `pProcessPrng == NULL`; at the read of `pRtlGenRandom` (line 60). -/
  | dispatchFallback
  /-- Returned, having dispatched on these values of `pProcessPrng` and `pRtlGenRandom`. -/
  | returned (native : Option PFN_ProcessPrng) (fallback : Option PFN_RtlGenRandom)

/-- One access of a thread to the globals. -/
def step (host : Host) (g : Globals) : Pc → Globals × Pc
  | Pc.cas =>
    if g.bInitialized = 0 then
      ({ g with bInitialized := 1, probes := g.probes + 1 }, Pc.probeNative)
    else (g, Pc.dispatch)
  | Pc.probeNative => ({ g with pProcessPrng := host.processPrng }, Pc.probeFallback)
  | Pc.probeFallback =>
    match g.pProcessPrng with
    | none => ({ g with pRtlGenRandom := host.systemFunction036 }, Pc.dispatch)
    | some _ => (g, Pc.dispatch)
  | Pc.dispatch =>
    match g.pProcessPrng with
    | some f => (g, Pc.returned (some f) none)
    | none => (g, Pc.dispatchFallback)
  | Pc.dispatchFallback => (g, Pc.returned none g.pRtlGenRandom)
  | Pc.returned n f => (g, Pc.returned n f)

/-- The process: the globals and the program point of every thread. -/
structure Process where
  globals : Globals
  threads : List Pc

/-- A cold process in which `n` threads have just entered `ProcessPrng`. -/
def Process.cold (n : Nat) : Process :=
  { globals := Globals.cold, threads := List.replicate n Pc.cas }

/-- Thread `i` runs for one access. -/
def Process.sched (host : Host) (p : Process) (i : Nat) : Process :=
  match p.threads.get? i with
  | none => p
  | some pc =>
    let r := step host p.globals pc
    { globals := r.1, threads := p.threads.set i r.2 }

/-- The interleaving given by `schedule` (the thread to run, access after access). -/
def Process.run (host : Host) (p : Process) (schedule : List Nat) : Process :=
  schedule.foldl (Process.sched host) p

/-- What `ProcessPrng(pbData, cbData)` returns in thread `i`, once that thread has dispatched:
the body of `ProcessPrng` after `InitBCryptCompat()`, on the pointer values the thread read. -/
def Process.result (p : Process) (i : Nat) (pbData cbData : Nat) : Option (Bool × State) :=
  match p.threads.get? i with
  | some (Pc.returned n f) => some (ProcessPrng n f pbData cbData State.init)
  | _ => none

/-! ### Notions used in the statements -/

/-- The number of chunks the specification announces for a request of `L` bytes:
`ceil (L / maxChunk)`. -/
def numChunks (L : Nat) : Nat := (L + maxChunk - 1) / maxChunk

/-- The `i`-th provider call the specification announces for the buffer at `pbData` of length
`L`: it starts at offset `i * maxChunk` and has size `min maxChunk (L - i * maxChunk)`. -/
def chunkCall (pbData L i : Nat) : Nat × Nat :=
  (pbData + i * maxChunk, min maxChunk (L - i * maxChunk))

/-- The first `n` provider calls the specification announces, in order. -/
def specChunks (pbData L n : Nat) : List (Nat × Nat) :=
  (List.range n).map (chunkCall pbData L)

/-- The probe is entered at most once, whatever the interleaving: the counter of probes is
`0` while `bInitialized` is `0` and `1` afterwards. -/
def ProbeOnce (g : Globals) : Prop :=
  g.probes = if g.bInitialized = 0 then 0 else 1

end BCryptCompat

/-! # Theorems about `sync_compat.c` -/

namespace SyncCompat

theorem invalidSize_eq_true_iff (sz : Nat) : invalidSize sz = true ↔ ¬ ValidWidth sz := by
  unfold ValidWidth
  by_cases h : sz > 8
  · have : invalidSize sz = true := by simp [invalidSize, h]
    simp only [this, true_iff]
    omega
  · have h8 : sz ≤ 8 := by omega
    interval_cases sz <;> decide

theorem invalidSize_of_valid {w : Nat} (hw : ValidWidth w) : invalidSize w = false := by
  rcases hw with h | h | h | h <;> subst h <;> decide

theorem compareSwitch_of_valid {w : Nat} (hw : ValidWidth w) (a c : Nat) (b : Bool) :
    compareSwitch w a c b = decide (load w a = load w c) := by
  rcases hw with h | h | h | h <;> subst h <;> rfl

theorem compareSwitch_of_invalid {w : Nat} (hw : ¬ ValidWidth w) (a c : Nat) (b : Bool) :
    compareSwitch w a c b = b := by
  unfold ValidWidth at hw
  unfold compareSwitch
  split <;> first | rfl | omega

theorem loopBody_changed {w : Nat} (hw : ValidWidth w) (env : Env) (t start : Nat) (b : Bool)
    (s : State) (h : ¬ Unchanged env w s.compares) :
    loopBody env w t start b s = Step.ret true { s with compares := s.compares + 1 } := by
  unfold Unchanged at h
  simp [loopBody, compareSwitch_of_valid hw, h]

theorem loopBody_unchanged_infinite {w : Nat} (hw : ValidWidth w) (env : Env) (start : Nat)
    (b : Bool) (s : State) (h : Unchanged env w s.compares) :
    loopBody env w INFINITE start b s
      = Step.continue true { s with compares := s.compares + 1, sleeps := s.sleeps + 1 } := by
  unfold Unchanged at h
  simp [loopBody, compareSwitch_of_valid hw, h]

theorem loopBody_unchanged_timeout {w : Nat} (hw : ValidWidth w) (env : Env) {t : Nat}
    (start : Nat) (b : Bool) (s : State) (ht : t ≠ INFINITE) (h : Unchanged env w s.compares)
    (hel : t ≤ elapsedAt env start s.ticks) :
    loopBody env w t start b s
      = Step.ret false { s with compares := s.compares + 1, ticks := s.ticks + 1,
                                lastError := some ERROR_TIMEOUT } := by
  unfold Unchanged at h
  unfold elapsedAt at hel
  simp [loopBody, compareSwitch_of_valid hw, h, ht, GetTickCount, hel]

theorem loopBody_unchanged_sleep {w : Nat} (hw : ValidWidth w) (env : Env) {t : Nat}
    (start : Nat) (b : Bool) (s : State) (ht : t ≠ INFINITE) (h : Unchanged env w s.compares)
    (hel : elapsedAt env start s.ticks < t) :
    loopBody env w t start b s
      = Step.continue true { s with compares := s.compares + 1, ticks := s.ticks + 1,
                                     sleeps := s.sleeps + 1 } := by
  unfold Unchanged at h
  unfold elapsedAt at hel
  simp [loopBody, compareSwitch_of_valid hw, h, ht, GetTickCount, hel]

theorem afterPolls_zero (t : Nat) (s : State) : afterPolls t s 0 = s := by
  simp [afterPolls]

/-- While the value is unchanged and the deadline has not passed, the loop keeps polling. -/
theorem pollLoop_keeps_polling {w : Nat} (hw : ValidWidth w) (env : Env) (t start : Nat) :
    ∀ (n fuel : Nat) (b : Bool) (s : State),
      (∀ j, j < n → Unchanged env w (s.compares + j)) →
      (∀ j, j < n → t = INFINITE ∨ elapsedAt env start (s.ticks + j) < t) →
      pollLoop env w t start (n + fuel) b s
        = pollLoop env w t start fuel (if n = 0 then b else true) (afterPolls t s n) := by
  intro n
  induction n with
  | zero => intro fuel b s _ _; simp [afterPolls_zero]
  | succ n ih =>
    intro fuel b s hsame hel
    have h0 : Unchanged env w s.compares := by simpa using hsame 0 (Nat.succ_pos n)
    have e0 := hel 0 (Nat.succ_pos n)
    have hfuel : n + 1 + fuel = (n + fuel) + 1 := by omega
    rw [hfuel, pollLoop]
    by_cases ht : t = INFINITE
    · subst ht
      rw [loopBody_unchanged_infinite hw env start b s h0]
      simp only
      rw [ih fuel true _ (fun j hj => by
            have := hsame (j + 1) (by omega)
            simpa [Nat.add_assoc, Nat.add_comm 1 j] using this)
          (fun j _ => Or.inl rfl)]
      congr 1
      · split <;> simp
      · simp [afterPolls]; omega
    · have e0lt : elapsedAt env start s.ticks < t := by
        rcases e0 with h | h
        · exact absurd h ht
        · simpa using h
      rw [loopBody_unchanged_sleep hw env start b s ht h0 e0lt]
      simp only
      rw [ih fuel true _ (fun j hj => by
            have := hsame (j + 1) (by omega)
            simpa [Nat.add_assoc, Nat.add_comm 1 j] using this)
          (fun j hj => by
            have := hel (j + 1) (by omega)
            simpa [Nat.add_assoc, Nat.add_comm 1 j] using this)]
      congr 1
      · split <;> simp
      · simp [afterPolls, ht]; omega

/-- A failure of the polling loop is a timeout, reported at a poll that read an unchanged
value. -/
theorem pollLoop_false {w : Nat} (hw : ValidWidth w) (env : Env) (t start : Nat) :
    ∀ (fuel : Nat) (b : Bool) (s st : State),
      pollLoop env w t start fuel b s = some (false, st) →
      st.lastError = some ERROR_TIMEOUT ∧ s.compares < st.compares ∧
        Unchanged env w (st.compares - 1) ∧ t ≠ INFINITE ∧
        t ≤ elapsedAt env start (st.ticks - 1) := by
  intro fuel
  induction fuel with
  | zero => intro b s st h; simp [pollLoop] at h
  | succ fuel ih =>
    intro b s st h
    rw [pollLoop] at h
    by_cases hc : Unchanged env w s.compares
    · by_cases ht : t = INFINITE
      · subst ht
        rw [loopBody_unchanged_infinite hw env start b s hc] at h
        obtain ⟨h1, h2, h3, h4, h5⟩ := ih _ _ _ h
        exact ⟨h1, by simp at h2; omega, h3, h4, h5⟩
      · by_cases hel : t ≤ elapsedAt env start s.ticks
        · rw [loopBody_unchanged_timeout hw env start b s ht hc hel] at h
          simp only [Option.some.injEq, Prod.mk.injEq, true_and] at h
          subst h
          exact ⟨rfl, by simp, by simpa using hc, ht, by simpa using hel⟩
        · rw [loopBody_unchanged_sleep hw env start b s ht hc (by omega)] at h
          obtain ⟨h1, h2, h3, h4, h5⟩ := ih _ _ _ h
          exact ⟨h1, by simp at h2; omega, h3, h4, h5⟩
    · rw [loopBody_changed hw env t start b s hc] at h
      simp at h

/-- The fallback path of `WaitOnAddress` for a width that passes the argument check. -/
theorem WaitOnAddress_fallback {w : Nat} (hw : ValidWidth w) (env : Env)
    (fuel A C t : Nat) (s : State) :
    WaitOnAddress none env fuel A C w t s
      = if Unchanged env w s.compares then
          pollLoop env w t (env.tickCount s.ticks % DWORD_MOD) fuel true
            { s with compares := s.compares + 1, ticks := s.ticks + 1 }
        else some (true, { s with compares := s.compares + 1 }) := by
  unfold Unchanged
  by_cases h : load w (env.address s.compares) = load w (env.compare s.compares)
  · simp [WaitOnAddress, invalidSize_of_valid hw, compareSwitch_of_valid hw, h, GetTickCount]
  · simp [WaitOnAddress, invalidSize_of_valid hw, compareSwitch_of_valid hw, h]

/-- The fallback path of a fresh call, for a width that passes the argument check. -/
theorem WaitOnAddress_fallback_init {w : Nat} (hw : ValidWidth w) (env : Env)
    (fuel A C t : Nat) :
    WaitOnAddress none env fuel A C w t State.init
      = if Unchanged env w 0 then
          pollLoop env w t (env.tickCount 0 % DWORD_MOD) fuel true
            { compares := 1, ticks := 1, sleeps := 0, nativeCalls := 0, lastError := none }
        else some (true, { compares := 1, ticks := 0, sleeps := 0, nativeCalls := 0,
                           lastError := none }) :=
  WaitOnAddress_fallback hw env fuel A C t State.init

/-- The fallback path of `WaitOnAddress` for a width that fails the argument check. -/
theorem WaitOnAddress_fallback_invalid {sz : Nat} (hsz : ¬ ValidWidth sz) (env : Env)
    (fuel A C t : Nat) (s : State) :
    WaitOnAddress none env fuel A C sz t s
      = some (false, { s with lastError := some ERROR_INVALID_PARAMETER }) := by
  have h := (invalidSize_eq_true_iff sz).2 hsz
  simp [WaitOnAddress, h]

theorem elapsedTicks_wrap (start d : Nat) (hs : start < 2 ^ 32) (hd : d < 2 ^ 32) :
    elapsedTicks ((start + d) % 2 ^ 32) start = d := by
  unfold elapsedTicks DWORD_MOD
  omega

/-- The check at entry: a changed value makes the fallback return at once. -/
theorem WaitOnAddress_changed_at_entry {w : Nat} (env : Env) (fuel A C : Nat)
    {t : Nat} (hw : ValidWidth w) (hne : ¬ Unchanged env w 0) :
    WaitOnAddress none env fuel A C w t State.init
      = some (true, { compares := 1, ticks := 0, sleeps := 0, nativeCalls := 0,
                      lastError := none }) := by
  rw [WaitOnAddress_fallback hw]
  have h : ¬ Unchanged env w State.init.compares := hne
  rw [if_neg h]
  rfl

/-! ## The claims about `WaitOnAddress` -/

/-- C1. On the fallback path (no native entry point), for every width in 1, 2, 4, 8 and every
timeout: when the value read at `Address` at call time differs from the value at
`CompareAddress`, `WaitOnAddress` returns `TRUE` after that single comparison, whatever the bound
on the polling loop: it has called neither `Sleep` nor `GetTickCount` and has not stored an error
code. -/
theorem wait_changed_at_entry_returns_immediately (env : Env) (fuel A C w t : Nat)
    (hw : w = 1 ∨ w = 2 ∨ w = 4 ∨ w = 8)
    (hne : load w (env.address 0) ≠ load w (env.compare 0)) :
    WaitOnAddress none env fuel A C w t State.init
      = some (true, { compares := 1, ticks := 0, sleeps := 0, nativeCalls := 0,
                      lastError := none }) := by
  rw [WaitOnAddress_fallback hw]
  have h : ¬ Unchanged env w State.init.compares := hne
  rw [if_neg h]
  rfl

/-- Witness of C1: a 4-byte wait for `0` on a location that holds `1`, timeout 1000 ms. -/
theorem wait_changed_at_entry_returns_immediately_witness :
    WaitOnAddress none ⟨fun _ => 1, fun _ => 0, fun _ => 0⟩ 0 0 0 4 1000 State.init
      = some (true, { compares := 1, ticks := 0, sleeps := 0, nativeCalls := 0,
                      lastError := none }) :=
  wait_changed_at_entry_returns_immediately ⟨fun _ => 1, fun _ => 0, fun _ => 0⟩ 0 0 0 4 1000
    (by decide) (by decide)

/-- C3, counterexample. With a native entry point resolved, a call with the invalid width 3 is
delegated: the native function is called and its result (`TRUE` here) is returned; no
`ERROR_INVALID_PARAMETER` is stored by `WaitOnAddress`. -/
theorem wait_invalid_width_is_delegated_to_native :
    ¬ ValidWidth 3 ∧
    WaitOnAddress (some (fun _ _ _ _ => true)) ⟨fun _ => 0, fun _ => 0, fun _ => 0⟩ 0 0 0 3 0
        State.init
      = some (true, { compares := 0, ticks := 0, sleeps := 0, nativeCalls := 1,
                      lastError := none }) := by
  decide

/-- C3, amended. The width is validated on the fallback path only. Without a native entry
point, a width other than 1, 2, 4, 8 makes `WaitOnAddress` return `FALSE` with
`ERROR_INVALID_PARAMETER` (which is not `ERROR_TIMEOUT`), before any comparison, clock read or
sleep. With a native entry point, the call is delegated with its arguments unchanged, whatever
the width, and the native result is returned. -/
theorem wait_invalid_width_fallback_rejects_native_delegates (env : Env)
    (fuel A C sz t : Nat) (hsz : ¬ (sz = 1 ∨ sz = 2 ∨ sz = 4 ∨ sz = 8)) :
    WaitOnAddress none env fuel A C sz t State.init
        = some (false, { compares := 0, ticks := 0, sleeps := 0, nativeCalls := 0,
                         lastError := some ERROR_INVALID_PARAMETER }) ∧
      ERROR_INVALID_PARAMETER ≠ ERROR_TIMEOUT ∧
      ∀ native : PFN_WaitOnAddress,
        WaitOnAddress (some native) env fuel A C sz t State.init
          = some (native A C sz t, { compares := 0, ticks := 0, sleeps := 0, nativeCalls := 1,
                                     lastError := none }) := by
  refine ⟨?_, by decide, fun native => rfl⟩
  rw [WaitOnAddress_fallback_invalid hsz]
  rfl

/-- Witness of C3 (amended): width 3. -/
theorem wait_invalid_width_fallback_rejects_native_delegates_witness :
    WaitOnAddress none ⟨fun _ => 0, fun _ => 0, fun _ => 0⟩ 7 0 0 3 50 State.init
        = some (false, { compares := 0, ticks := 0, sleeps := 0, nativeCalls := 0,
                         lastError := some ERROR_INVALID_PARAMETER }) :=
  (wait_invalid_width_fallback_rejects_native_delegates ⟨fun _ => 0, fun _ => 0, fun _ => 0⟩
    7 0 0 3 50 (by decide)).1

/-- C5. The elapsed time of the fallback poller is safe under wraparound of the tick counter:
for a 32-bit start tick `start` and a true elapsed time `d < 2 ^ 32`, when `GetTickCount()`
returns `(start + d) mod 2 ^ 32` the `DWORD` difference `now - start` is `d`. Hence a pass
through the loop body with a finite timeout `t` that reads an unchanged value returns `FALSE`
with `ERROR_TIMEOUT` if and only if `d ≥ t`; otherwise it calls `Sleep(1)` and goes on. -/
theorem elapsed_is_wraparound_safe (start d : Nat) (hs : start < 2 ^ 32) (hd : d < 2 ^ 32) :
    elapsedTicks ((start + d) % 2 ^ 32) start = d ∧
    ∀ (env : Env) (w t : Nat) (b : Bool) (s : State),
      (w = 1 ∨ w = 2 ∨ w = 4 ∨ w = 8) → t ≠ INFINITE →
      load w (env.address s.compares) = load w (env.compare s.compares) →
      env.tickCount s.ticks = (start + d) % 2 ^ 32 →
      ((loopBody env w t start b s
          = Step.ret false { s with compares := s.compares + 1, ticks := s.ticks + 1,
                                    lastError := some ERROR_TIMEOUT }) ↔ t ≤ d) ∧
      ((loopBody env w t start b s
          = Step.continue true { s with compares := s.compares + 1, ticks := s.ticks + 1,
                                        sleeps := s.sleeps + 1 }) ↔ d < t) := by
  have hwrap := elapsedTicks_wrap start d hs hd
  refine ⟨hwrap, ?_⟩
  intro env w t b s hw ht hsame htick
  have hel : elapsedAt env start s.ticks = d := by
    unfold elapsedAt
    rw [htick]
    have : (start + d) % 2 ^ 32 % DWORD_MOD = (start + d) % 2 ^ 32 := by
      unfold DWORD_MOD; omega
    rw [this]; exact hwrap
  have hsame1 : Unchanged env w s.compares := hsame
  by_cases htd : t ≤ d
  · have := loopBody_unchanged_timeout hw env start b s ht hsame1 (by omega)
    rw [this]
    constructor
    · simp [htd]
    · constructor
      · intro h; cases h
      · intro h; omega
  · have := loopBody_unchanged_sleep hw env start b s ht hsame1 (by omega)
    rw [this]
    constructor
    · constructor
      · intro h; cases h
      · intro h; omega
    · simp; omega

/-- Witness of C5: the counter wraps between the start tick `2 ^ 32 - 5` and the reading `5`;
the elapsed time is `10`, which reaches the timeout of 10 ms. -/
theorem elapsed_is_wraparound_safe_witness :
    elapsedTicks ((4294967291 + 10) % 2 ^ 32) 4294967291 = 10 ∧
    loopBody ⟨fun _ => 0, fun _ => 0, fun _ => 5⟩ 4 10 4294967291 true
        { compares := 1, ticks := 1, sleeps := 0, nativeCalls := 0, lastError := none }
      = Step.ret false { compares := 2, ticks := 2, sleeps := 0, nativeCalls := 0,
                         lastError := some ERROR_TIMEOUT } :=
  have h := elapsed_is_wraparound_safe 4294967291 10 (by decide) (by decide)
  ⟨h.1, ((h.2 ⟨fun _ => 0, fun _ => 0, fun _ => 5⟩ 4 10 true
      { compares := 1, ticks := 1, sleeps := 0, nativeCalls := 0, lastError := none }
      (by decide) (by decide) (by decide) (by decide)).1).2 (by decide)⟩

/-- C6, counterexample. A 1-byte wait with `dwMilliseconds = 0` on a value that never changes
returns `FALSE` with `ERROR_TIMEOUT` and never sleeps, but only after two comparisons: the check
at entry (lines 101-123) and the re-check of the first pass through the loop (lines 129-142). -/
theorem wait_zero_timeout_compares_twice :
    WaitOnAddress none ⟨fun _ => 0, fun _ => 0, fun _ => 0⟩ 1 0 0 1 0 State.init
      = some (false, { compares := 2, ticks := 2, sleeps := 0, nativeCalls := 0,
                       lastError := some ERROR_TIMEOUT }) := by
  decide

/-- C6, amended. For every width in 1, 2, 4, 8 and every clock behaviour, a fallback-path
`WaitOnAddress` with `dwMilliseconds = 0` on a value that stays equal to the comparand returns
`FALSE` with `ERROR_TIMEOUT` as soon as the loop is allowed one pass: it has never called
`Sleep`, and it has made exactly two comparisons and two clock reads. -/
theorem wait_zero_timeout_unchanged_times_out (env : Env) (fuel A C w : Nat)
    (hw : w = 1 ∨ w = 2 ∨ w = 4 ∨ w = 8)
    (hsame : ∀ n, load w (env.address n) = load w (env.compare n)) :
    WaitOnAddress none env (fuel + 1) A C w 0 State.init
      = some (false, { compares := 2, ticks := 2, sleeps := 0, nativeCalls := 0,
                       lastError := some ERROR_TIMEOUT }) := by
  rw [WaitOnAddress_fallback hw]
  have h0 : Unchanged env w State.init.compares := hsame _
  rw [if_pos h0, pollLoop]
  have ht : (0 : Nat) ≠ INFINITE := by decide
  rw [loopBody_unchanged_timeout hw env _ true _ ht (hsame _) (Nat.zero_le _)]
  rfl

/-- Witness of C6 (amended): an 8-byte wait on a constant location, with a clock that jumps. -/
theorem wait_zero_timeout_unchanged_times_out_witness :
    WaitOnAddress none ⟨fun _ => 7, fun _ => 7, fun n => 1000 * n⟩ 1 0 0 8 0 State.init
      = some (false, { compares := 2, ticks := 2, sleeps := 0, nativeCalls := 0,
                       lastError := some ERROR_TIMEOUT }) :=
  wait_zero_timeout_unchanged_times_out ⟨fun _ => 7, fun _ => 7, fun n => 1000 * n⟩ 0 0 0 8
    (by decide) (fun _ => rfl)

/-- C10. The argument check of the fallback path is exact. For every value of `AddressSize`
the test `AddressSize > 8 || AddressSize == 0 || ((AddressSize - 1) & AddressSize) != 0` holds
if and only if `AddressSize` is not one of 1, 2, 4, 8; the fallback `WaitOnAddress` fails with
`ERROR_INVALID_PARAMETER` if and only if `AddressSize` is not one of 1, 2, 4, 8; and every
accepted width is handled by a `case` of the comparison `switch` (the outcome is the comparison
of the two values at that width, never the fall-through). -/
theorem width_check_is_exact (sz : Nat) :
    (invalidSize sz = true ↔ ¬ (sz = 1 ∨ sz = 2 ∨ sz = 4 ∨ sz = 8)) ∧
    (∀ (env : Env) (fuel A C t : Nat),
      (∃ st, WaitOnAddress none env fuel A C sz t State.init = some (false, st) ∧
          st.lastError = some ERROR_INVALID_PARAMETER)
        ↔ ¬ (sz = 1 ∨ sz = 2 ∨ sz = 4 ∨ sz = 8)) ∧
    (invalidSize sz = false →
      ∀ (a c : Nat) (b : Bool), compareSwitch sz a c b = decide (load sz a = load sz c)) := by
  refine ⟨invalidSize_eq_true_iff sz, ?_, ?_⟩
  · intro env fuel A C t
    constructor
    · rintro ⟨st, hst, herr⟩ hv
      rw [WaitOnAddress_fallback hv] at hst
      split at hst
      · have := (pollLoop_false hv env t _ fuel true _ st hst).1
        rw [this] at herr
        exact absurd herr (by decide)
      · simp at hst
    · intro hv
      exact ⟨_, WaitOnAddress_fallback_invalid hv env fuel A C t State.init, rfl⟩
  · intro h a c b
    have hv : ValidWidth sz := by
      by_contra hn
      rw [(invalidSize_eq_true_iff sz).2 hn] at h
      exact absurd h (by decide)
    exact compareSwitch_of_valid hv a c b

/-- C2. On the fallback path, for every width in 1, 2, 4, 8: number the passes through the
polling loop 0, 1, 2, ... (pass `j` makes comparison `j + 1` of the call, comparison 0 being the
check at entry, and, for a finite timeout, reads the clock for the `j + 1`-st time). If pass `k`
reads a value that differs from the comparand and the elapsed time computed at every earlier pass
was below the timeout (or the timeout is `INFINITE`), then every run of `WaitOnAddress` that is
allowed more than `k` passes returns `TRUE`, without an error code, at the first comparison that
differs: after at most `k + 2` comparisons and `k` sleeps, and exactly at pass `k` when no
earlier comparison differed. Moreover a `FALSE` result is always `ERROR_TIMEOUT` reported at a
pass whose read was equal to the comparand: never at a pass whose read differed. -/
theorem wait_succeeds_when_value_changes_before_timeout (env : Env) (A C w t k : Nat)
    (hw : w = 1 ∨ w = 2 ∨ w = 4 ∨ w = 8)
    (hk : load w (env.address (k + 1)) ≠ load w (env.compare (k + 1)))
    (hel : ∀ j, j < k → t = INFINITE ∨
      elapsedTicks (env.tickCount (j + 1) % DWORD_MOD) (env.tickCount 0 % DWORD_MOD) < t) :
    (∃ st : State,
      (∀ fuel, k < fuel → WaitOnAddress none env fuel A C w t State.init = some (true, st)) ∧
      st.lastError = none ∧ st.compares ≤ k + 2 ∧ st.sleeps ≤ k ∧
      ((∀ j, j ≤ k → load w (env.address j) = load w (env.compare j)) →
        st = { compares := k + 2, ticks := if t = INFINITE then 1 else k + 1, sleeps := k,
               nativeCalls := 0, lastError := none })) ∧
    (∀ fuel st, WaitOnAddress none env fuel A C w t State.init = some (false, st) →
      st.lastError = some ERROR_TIMEOUT ∧
      load w (env.address (st.compares - 1)) = load w (env.compare (st.compares - 1))) := by
  constructor
  · by_cases h0 : Unchanged env w 0
    · -- the first pass that reads a changed value
      have hex : ∃ m, ¬ Unchanged env w (m + 1) := ⟨k, hk⟩
      have hm := Nat.find_spec hex
      have hmk : Nat.find hex ≤ k := Nat.find_min' hex hk
      have hmin : ∀ j, j < Nat.find hex → Unchanged env w (j + 1) := fun j hj => by
        have := Nat.find_min hex hj
        simpa using this
      generalize Nat.find hex = m at hm hmk hmin
      refine ⟨{ compares := m + 2, ticks := 1 + (if t = INFINITE then 0 else m), sleeps := m,
                nativeCalls := 0, lastError := none }, ?_, rfl, by simp; omega, by simpa, ?_⟩
      · intro fuel hfuel
        rw [WaitOnAddress_fallback_init hw, if_pos h0]
        obtain ⟨f, rfl⟩ : ∃ f, fuel = m + (f + 1) := ⟨fuel - m - 1, by omega⟩
        rw [pollLoop_keeps_polling hw env t _ m (f + 1) true _
              (fun j hj => by simpa [Nat.add_comm 1 j] using hmin j hj)
              (fun j hj => by
                simpa [elapsedAt, Nat.add_comm 1 j] using hel j (by omega)),
            pollLoop, loopBody_changed hw env t _ _ _
              (by simpa [afterPolls, Nat.add_comm 1 m] using hm)]
        simp [afterPolls]
        omega
      · intro hall
        have : m = k := by
          by_contra hne
          have hlt : m + 1 ≤ k := by omega
          exact hm (hall (m + 1) hlt)
        subst this
        by_cases ht : t = INFINITE <;> simp [ht]
        omega
    · refine ⟨{ compares := 1, ticks := 0, sleeps := 0, nativeCalls := 0, lastError := none },
              ?_, rfl, by simp, by simp, ?_⟩
      · intro fuel _
        exact WaitOnAddress_changed_at_entry env fuel A C hw h0
      · intro hall
        exact absurd (hall 0 (Nat.zero_le k)) h0
  · intro fuel st hst
    rw [WaitOnAddress_fallback_init hw] at hst
    split at hst
    · have h := pollLoop_false hw env t _ fuel true _ st hst
      exact ⟨h.1, h.2.2.1⟩
    · simp at hst

/-- Witness of C2: a 4-byte wait for `0`, timeout 1000 ms, clock advancing 10 ms per read; the
location holds `0` at the first three comparisons and `1` from the fourth (pass 2) on. -/
theorem wait_succeeds_when_value_changes_before_timeout_witness :
    WaitOnAddress none ⟨fun n => if n < 3 then 0 else 1, fun _ => 0, fun n => 10 * n⟩
        3 0 0 4 1000 State.init
      = some (true, { compares := 4, ticks := 3, sleeps := 2, nativeCalls := 0,
                      lastError := none }) := by
  obtain ⟨st, hrun, _, _, _, hexact⟩ :=
    (wait_succeeds_when_value_changes_before_timeout
      ⟨fun n => if n < 3 then 0 else 1, fun _ => 0, fun n => 10 * n⟩ 0 0 4 1000 2
      (by decide) (by decide) (by decide)).1
  have hst := hexact (by decide)
  subst hst
  exact hrun 3 (by decide)

/-- C4, counterexample. Two 1-byte waits with a timeout of 100 ms that agree on the values read
at `Address` (always `0`), on the tick readings (60 ms apart) and on the contents of the
comparand at call time (`0`). In the second one the comparand memory is overwritten with `1`
after the call has started: the first wait times out, the second returns `TRUE`, because every
pass through the loop reads `*CompareAddress` again. -/
theorem wait_rereads_comparand_every_pass :
    WaitOnAddress none ⟨fun _ => 0, fun _ => 0, fun n => 60 * n⟩ 5 0 0 1 100 State.init
      = some (false, { compares := 3, ticks := 3, sleeps := 1, nativeCalls := 0,
                       lastError := some ERROR_TIMEOUT }) ∧
    WaitOnAddress none ⟨fun _ => 0, fun n => if n = 0 then 0 else 1, fun n => 60 * n⟩
        5 0 0 1 100 State.init
      = some (true, { compares := 2, ticks := 1, sleeps := 0, nativeCalls := 0,
                      lastError := none }) := by
  decide

theorem compareSwitch_congr (w a1 c1 a2 c2 : Nat) (b : Bool)
    (ha : load w a1 = load w a2) (hc : load w c1 = load w c2) :
    compareSwitch w a1 c1 b = compareSwitch w a2 c2 b := by
  by_cases hw : ValidWidth w
  · rw [compareSwitch_of_valid hw, compareSwitch_of_valid hw, ha, hc]
  · rw [compareSwitch_of_invalid hw, compareSwitch_of_invalid hw]

theorem GetTickCount_congr (e1 e2 : Env)
    (htick : ∀ n, e1.tickCount n % 2 ^ 32 = e2.tickCount n % 2 ^ 32) (s : State) :
    GetTickCount e1 s = GetTickCount e2 s := by
  have ht : e1.tickCount s.ticks % DWORD_MOD = e2.tickCount s.ticks % DWORD_MOD := htick _
  unfold GetTickCount
  rw [ht]

theorem loopBody_congr (e1 e2 : Env) (w t start : Nat) (b : Bool) (s : State)
    (haddr : ∀ n, load w (e1.address n) = load w (e2.address n))
    (hcmp : ∀ n, load w (e1.compare n) = load w (e2.compare n))
    (htick : ∀ n, e1.tickCount n % 2 ^ 32 = e2.tickCount n % 2 ^ 32) :
    loopBody e1 w t start b s = loopBody e2 w t start b s := by
  unfold loopBody
  rw [compareSwitch_congr w _ _ _ _ b (haddr s.compares) (hcmp s.compares)]
  simp only [GetTickCount_congr e1 e2 htick]

theorem pollLoop_congr (e1 e2 : Env) (w t start : Nat)
    (haddr : ∀ n, load w (e1.address n) = load w (e2.address n))
    (hcmp : ∀ n, load w (e1.compare n) = load w (e2.compare n))
    (htick : ∀ n, e1.tickCount n % 2 ^ 32 = e2.tickCount n % 2 ^ 32) :
    ∀ (fuel : Nat) (b : Bool) (s : State),
      pollLoop e1 w t start fuel b s = pollLoop e2 w t start fuel b s := by
  intro fuel
  induction fuel with
  | zero => intro b s; rfl
  | succ fuel ih =>
    intro b s
    rw [pollLoop, pollLoop, loopBody_congr e1 e2 w t start b s haddr hcmp htick]
    split
    · rfl
    · exact ih _ _

/-- C4, amended. The comparand is not snapshotted: it is read through `CompareAddress` at every
comparison. Two executions of the fallback `WaitOnAddress` with the same width, timeout and
bound on the polling loop give the same result (return value, error code, number of comparisons,
clock reads and sleeps) whenever they agree, at the width of the wait, on the value read at
`Address` at every comparison and on the value read at `CompareAddress` at every comparison, and
agree on every `DWORD` tick reading. -/
theorem wait_result_determined_by_values_read (e1 e2 : Env) (fuel A C w t : Nat)
    (haddr : ∀ n, load w (e1.address n) = load w (e2.address n))
    (hcmp : ∀ n, load w (e1.compare n) = load w (e2.compare n))
    (htick : ∀ n, e1.tickCount n % 2 ^ 32 = e2.tickCount n % 2 ^ 32) :
    WaitOnAddress none e1 fuel A C w t State.init
      = WaitOnAddress none e2 fuel A C w t State.init := by
  unfold WaitOnAddress
  simp only
  rw [compareSwitch_congr w _ _ _ _ false (haddr State.init.compares)
        (hcmp State.init.compares)]
  simp only [GetTickCount_congr e1 e2 htick]
  split
  · rfl
  · split
    · rfl
    · exact pollLoop_congr e1 e2 w t _ haddr hcmp htick _ _ _

/-- Witness of C4 (amended): two 1-byte waits whose memory and tick readings differ only above
the bytes and bits that are read. -/
theorem wait_result_determined_by_values_read_witness :
    WaitOnAddress none ⟨fun _ => 256, fun _ => 0, fun n => 60 * n⟩ 5 0 0 1 100 State.init
      = WaitOnAddress none ⟨fun _ => 0, fun _ => 512, fun n => 60 * n + 2 ^ 32⟩
          5 0 0 1 100 State.init :=
  wait_result_determined_by_values_read ⟨fun _ => 256, fun _ => 0, fun n => 60 * n⟩
    ⟨fun _ => 0, fun _ => 512, fun n => 60 * n + 2 ^ 32⟩ 5 0 0 1 100
    (fun _ => by simp [load]) (fun _ => by simp [load]) (fun n => by simp)

end SyncCompat

/-! # Theorems about `bcrypt_compat.c` -/

namespace BCryptCompat

theorem numChunks_zero : numChunks 0 = 0 := by decide

theorem numChunks_pos {L : Nat} (h : 0 < numChunks L) : 0 < L := by
  unfold numChunks maxChunk at h
  omega

theorem numChunks_sub {L : Nat} : numChunks (L - maxChunk) = numChunks L - 1 := by
  unfold numChunks maxChunk
  omega

theorem one_lt_numChunks {L : Nat} (h : 1 < numChunks L) : maxChunk < L := by
  unfold numChunks maxChunk at h
  unfold maxChunk
  omega

theorem chunk_eq (remaining : Nat) :
    (if remaining > maxChunk then maxChunk else remaining % ULONG_MOD)
      = min maxChunk remaining := by
  unfold maxChunk ULONG_MOD
  split <;> omega

theorem chunkCall_succ (cur L i : Nat) :
    chunkCall cur L (i + 1) = chunkCall (cur + maxChunk) (L - maxChunk) i := by
  unfold chunkCall
  have h1 : cur + (i + 1) * maxChunk = cur + maxChunk + i * maxChunk := by
    rw [Nat.add_mul]; omega
  have h2 : L - (i + 1) * maxChunk = L - maxChunk - i * maxChunk := by
    rw [Nat.add_mul]; omega
  rw [h1, h2]

theorem specChunks_succ (cur L n : Nat) :
    specChunks cur L (n + 1)
      = (cur, min maxChunk L) :: specChunks (cur + maxChunk) (L - maxChunk) n := by
  unfold specChunks
  rw [List.range_succ_eq_map, List.map_cons, List.map_map]
  have hhead : chunkCall cur L 0 = (cur, min maxChunk L) := by simp [chunkCall]
  rw [hhead]
  congr 1
  apply List.map_congr_left
  intro i _
  exact chunkCall_succ cur L i

/-- One pass through the loop when the provider call fails. -/
theorem fillLoop_fail (rtl : PFN_RtlGenRandom) (remaining current : Nat) (s : State)
    (hpos : 0 < remaining)
    (hfail : rtl s.calls.length current (min maxChunk remaining) = false) :
    fillLoop rtl remaining current s
      = (false, { s with calls := s.calls ++ [(current, min maxChunk remaining)],
                         lastError := some ERROR_GEN_FAILURE }) := by
  rw [fillLoop]
  simp only [gt_iff_lt, hpos, dite_true, chunk_eq, hfail]
  rfl

/-- One pass through the loop when the provider call succeeds. -/
theorem fillLoop_ok (rtl : PFN_RtlGenRandom) (remaining current : Nat) (s : State)
    (hpos : 0 < remaining)
    (hok : rtl s.calls.length current (min maxChunk remaining) = true) :
    fillLoop rtl remaining current s
      = fillLoop rtl (remaining - min maxChunk remaining) (current + min maxChunk remaining)
          { s with calls := s.calls ++ [(current, min maxChunk remaining)] } := by
  rw [fillLoop]
  simp only [gt_iff_lt, hpos, dite_true, chunk_eq, hok]
  rfl

theorem fillLoop_zero (rtl : PFN_RtlGenRandom) (current : Nat) (s : State) :
    fillLoop rtl 0 current s = (true, s) := by
  rw [fillLoop]
  simp

theorem specChunks_eq (pbData L n : Nat) :
    specChunks pbData L n
      = (List.range n).map (fun i => (pbData + i * maxChunk, min maxChunk (L - i * maxChunk))) := by
  unfold specChunks chunkCall
  rfl

theorem numChunks_eq (L : Nat) : numChunks L = (L + maxChunk - 1) / maxChunk := by
  unfold numChunks
  rfl

theorem specChunks_zero (cur L : Nat) : specChunks cur L 0 = [] := rfl

theorem chunkCall_zero (cur L : Nat) : chunkCall cur L 0 = (cur, min maxChunk L) := by
  simp [chunkCall]

/-- The loop stops at the first provider call that fails. -/
theorem fillLoop_first_failure (rtl : PFN_RtlGenRandom) :
    ∀ (k remaining current : Nat) (s : State),
      k < numChunks remaining →
      (∀ i, i < k → rtl (s.calls.length + i) (chunkCall current remaining i).1
          (chunkCall current remaining i).2 = true) →
      rtl (s.calls.length + k) (chunkCall current remaining k).1
          (chunkCall current remaining k).2 = false →
      fillLoop rtl remaining current s
        = (false, { s with calls := s.calls ++ specChunks current remaining (k + 1),
                           lastError := some ERROR_GEN_FAILURE }) := by
  intro k
  induction k with
  | zero =>
    intro remaining current s hk _ hfail
    have hpos := numChunks_pos hk
    rw [chunkCall_zero] at hfail
    rw [fillLoop_fail rtl remaining current s hpos (by simpa using hfail),
        specChunks_succ, specChunks_zero]
  | succ k ih =>
    intro remaining current s hk hprev hfail
    have hpos := numChunks_pos (Nat.lt_of_le_of_lt (Nat.zero_le _) hk)
    have hbig : maxChunk < remaining := one_lt_numChunks (by omega)
    have hmin : min maxChunk remaining = maxChunk := Nat.min_eq_left (Nat.le_of_lt hbig)
    have h0 := hprev 0 (Nat.succ_pos k)
    rw [chunkCall_zero] at h0
    rw [fillLoop_ok rtl remaining current s hpos (by simpa using h0), hmin,
        ih (remaining - maxChunk) (current + maxChunk) _
          (by rw [numChunks_sub]; omega)
          (fun i hi => by
            have := hprev (i + 1) (by omega)
            rw [chunkCall_succ] at this
            simpa [Nat.add_assoc, Nat.add_comm 1 i] using this)
          (by
            rw [chunkCall_succ] at hfail
            simpa [Nat.add_assoc, Nat.add_comm 1 k] using hfail),
        specChunks_succ current remaining (k + 1), hmin]
    simp

/-- The loop runs to the end when every provider call succeeds. -/
theorem fillLoop_all_ok (rtl : PFN_RtlGenRandom) :
    ∀ (n remaining current : Nat) (s : State),
      numChunks remaining = n →
      (∀ i, i < n → rtl (s.calls.length + i) (chunkCall current remaining i).1
          (chunkCall current remaining i).2 = true) →
      fillLoop rtl remaining current s
        = (true, { s with calls := s.calls ++ specChunks current remaining n }) := by
  intro n
  induction n with
  | zero =>
    intro remaining current s hn _
    have h0 : remaining = 0 := by
      unfold numChunks maxChunk at hn
      omega
    subst h0
    rw [fillLoop_zero, specChunks_zero, List.append_nil]
  | succ n ih =>
    intro remaining current s hn hok
    have hpos : 0 < remaining := numChunks_pos (by omega)
    have h0 := hok 0 (Nat.succ_pos n)
    rw [chunkCall_zero] at h0
    rw [fillLoop_ok rtl remaining current s hpos (by simpa using h0), specChunks_succ]
    by_cases hbig : maxChunk < remaining
    · have hmin : min maxChunk remaining = maxChunk := Nat.min_eq_left (Nat.le_of_lt hbig)
      rw [hmin,
          ih (remaining - maxChunk) (current + maxChunk) _
            (by rw [numChunks_sub]; omega)
            (fun i hi => by
              have := hok (i + 1) (by omega)
              rw [chunkCall_succ] at this
              simpa [Nat.add_assoc, Nat.add_comm 1 i] using this)]
      simp
    · have hmin : min maxChunk remaining = remaining := Nat.min_eq_right (by omega)
      have hn0 : n = 0 := by
        unfold numChunks at hn
        unfold maxChunk at hn hbig
        omega
      subst hn0
      rw [hmin, Nat.sub_self, fillLoop_zero, specChunks_zero]

theorem specChunks_sum :
    ∀ (n L cur : Nat), numChunks L = n → ((specChunks cur L n).map Prod.snd).sum = L := by
  intro n
  induction n with
  | zero =>
    intro L cur hn
    unfold numChunks maxChunk at hn
    rw [specChunks_zero]
    simp
    omega
  | succ n ih =>
    intro L cur hn
    rw [specChunks_succ, List.map_cons, List.sum_cons,
        ih (L - maxChunk) (cur + maxChunk) (by rw [numChunks_sub]; omega)]
    have hpos : 0 < L := numChunks_pos (by omega)
    simp only
    omega

theorem chunk_size_bounds {L i : Nat} (hi : i < numChunks L) :
    0 < (chunkCall 0 L i).2 ∧ (chunkCall 0 L i).2 ≤ maxChunk := by
  unfold numChunks at hi
  unfold chunkCall
  unfold maxChunk at *
  simp only
  omega

/-- The fallback path of a fresh call stops at the first provider call that fails. -/
theorem ProcessPrng_first_failure (rtl : PFN_RtlGenRandom) (pbData L k : Nat)
    (hk : k < numChunks L)
    (hprev : ∀ i, i < k → rtl i (chunkCall pbData L i).1 (chunkCall pbData L i).2 = true)
    (hfail : rtl k (chunkCall pbData L k).1 (chunkCall pbData L k).2 = false) :
    ProcessPrng none (some rtl) pbData L State.init
      = (false, { calls := specChunks pbData L (k + 1), nativeCalls := 0,
                  lastError := some ERROR_GEN_FAILURE }) := by
  have h := fillLoop_first_failure rtl k L pbData State.init hk
    (fun i hi => by simpa [State.init] using hprev i hi) (by simpa [State.init] using hfail)
  simp only [ProcessPrng, h]
  simp [State.init]

/-! ## The claims about `ProcessPrng` -/

/-- C7. With only the fallback provider resolved and every provider call succeeding,
`ProcessPrng` returns `TRUE` for every length `L` after exactly `ceil (L / maxChunk)` calls of
`RtlGenRandom`, `maxChunk = 2 ^ 31 - 1`: call `i` gets the pointer `pbData + i * maxChunk` and
the size `min maxChunk (L - i * maxChunk)`. Every size is positive and at most `maxChunk`, each
call starts where the previous one ended, and the sizes add up to `L`. No error code is stored
and the native entry point is not called. -/
theorem fill_random_issues_contiguous_chunks (rtl : PFN_RtlGenRandom) (pbData L : Nat)
    (hok : ∀ n buf len, rtl n buf len = true) :
    ProcessPrng none (some rtl) pbData L State.init
      = (true, { calls := (List.range ((L + maxChunk - 1) / maxChunk)).map
                   (fun i => (pbData + i * maxChunk, min maxChunk (L - i * maxChunk))),
                 nativeCalls := 0, lastError := none }) ∧
    maxChunk = 2 ^ 31 - 1 ∧
    (∀ i, i < (L + maxChunk - 1) / maxChunk →
      0 < min maxChunk (L - i * maxChunk) ∧ min maxChunk (L - i * maxChunk) ≤ maxChunk ∧
      (i + 1 < (L + maxChunk - 1) / maxChunk →
        pbData + (i + 1) * maxChunk
          = pbData + i * maxChunk + min maxChunk (L - i * maxChunk))) ∧
    ((List.range ((L + maxChunk - 1) / maxChunk)).map
        (fun i => min maxChunk (L - i * maxChunk))).sum = L := by
  refine ⟨?_, by decide, ?_, ?_⟩
  · have h := fillLoop_all_ok rtl (numChunks L) L pbData State.init rfl
      (fun i _ => hok _ _ _)
    have hs : State.init.calls = [] := rfl
    unfold ProcessPrng
    simp only
    rw [h, specChunks_eq, numChunks_eq, hs, List.nil_append]
    rfl
  · intro i hi
    have hb := chunk_size_bounds (L := L) (i := i) hi
    refine ⟨by simpa [chunkCall] using hb.1, Nat.min_le_left _ _, ?_⟩
    intro hi1
    unfold maxChunk at *
    omega
  · have h := specChunks_sum (numChunks L) L pbData rfl
    simpa [specChunks, numChunks, chunkCall, List.map_map, Function.comp_def] using h

/-- Witness of C7: `L = maxChunk + 100` gives exactly two calls, of sizes `maxChunk` and `100`;
`L = 0` gives none. -/
theorem fill_random_issues_contiguous_chunks_witness :
    ProcessPrng none (some (fun _ _ _ => true)) 4096 (maxChunk + 100) State.init
      = (true, { calls := [(4096, maxChunk), (4096 + maxChunk, 100)], nativeCalls := 0,
                 lastError := none }) ∧
    ProcessPrng none (some (fun _ _ _ => true)) 4096 0 State.init
      = (true, { calls := [], nativeCalls := 0, lastError := none }) :=
  ⟨(fill_random_issues_contiguous_chunks (fun _ _ _ => true) 4096 (maxChunk + 100)
      (fun _ _ _ => rfl)).1.trans (by decide),
   (fill_random_issues_contiguous_chunks (fun _ _ _ => true) 4096 0
      (fun _ _ _ => rfl)).1.trans (by decide)⟩

/-- C8. With only the fallback provider resolved, for every length and every pattern of
provider outcomes: if chunk call number `k` (counting from 0, so the `k + 1`-st call) is the
first one that fails, `ProcessPrng` returns `FALSE` with `ERROR_GEN_FAILURE` after exactly
`k + 1` calls of `RtlGenRandom`, the failed one being the last: nothing is retried and no later
chunk is issued. And `ProcessPrng` returns `TRUE` only if every one of the
`ceil (L / maxChunk)` chunk calls succeeded. -/
theorem fill_random_first_failure_is_terminal (rtl : PFN_RtlGenRandom) (pbData L k : Nat)
    (hk : k < (L + maxChunk - 1) / maxChunk)
    (hprev : ∀ i, i < k →
      rtl i (pbData + i * maxChunk) (min maxChunk (L - i * maxChunk)) = true)
    (hfail : rtl k (pbData + k * maxChunk) (min maxChunk (L - k * maxChunk)) = false) :
    ProcessPrng none (some rtl) pbData L State.init
      = (false, { calls := (List.range (k + 1)).map
                    (fun i => (pbData + i * maxChunk, min maxChunk (L - i * maxChunk))),
                  nativeCalls := 0, lastError := some ERROR_GEN_FAILURE }) ∧
    ∀ rtl2 : PFN_RtlGenRandom,
      (ProcessPrng none (some rtl2) pbData L State.init).1 = true →
      ∀ i, i < (L + maxChunk - 1) / maxChunk →
        rtl2 i (pbData + i * maxChunk) (min maxChunk (L - i * maxChunk)) = true := by
  refine ⟨ProcessPrng_first_failure rtl pbData L k hk hprev hfail, ?_⟩
  intro rtl2 hres i hi
  by_contra hne
  have hex : ∃ j, j < numChunks L ∧
      rtl2 j (chunkCall pbData L j).1 (chunkCall pbData L j).2 = false :=
    ⟨i, hi, by simpa [chunkCall] using hne⟩
  have hspec := Nat.find_spec hex
  have hmin : ∀ j, j < Nat.find hex →
      rtl2 j (chunkCall pbData L j).1 (chunkCall pbData L j).2 = true := fun j hj => by
    have h := Nat.find_min hex hj
    have hjn : j < numChunks L := Nat.lt_trans hj hspec.1
    simpa [hjn] using h
  rw [ProcessPrng_first_failure rtl2 pbData L (Nat.find hex) hspec.1 hmin hspec.2] at hres
  simp at hres

/-- Witness of C8: a request of `2 * maxChunk + 5` bytes (three chunks) whose second provider
call fails: two calls are made, the third chunk is never requested. -/
theorem fill_random_first_failure_is_terminal_witness :
    ProcessPrng none (some (fun n _ _ => decide (n ≠ 1))) 0 (2 * maxChunk + 5) State.init
      = (false, { calls := [(0, maxChunk), (maxChunk, maxChunk)], nativeCalls := 0,
                  lastError := some ERROR_GEN_FAILURE }) :=
  (fill_random_first_failure_is_terminal (fun n _ _ => decide (n ≠ 1)) 0 (2 * maxChunk + 5) 1
    (by decide) (by decide) (by decide)).1.trans (by decide)

/-! ## Concurrent first calls -/

theorem step_probeOnce (host : Host) (g : Globals) (pc : Pc) (h : ProbeOnce g) :
    ProbeOnce (step host g pc).1 := by
  unfold ProbeOnce at *
  cases pc with
  | cas =>
    by_cases hb : g.bInitialized = 0
    · rw [if_pos hb] at h
      simp [step, hb, h]
    · rw [if_neg hb] at h
      simp [step, hb, h]
  | probeNative => simpa [step] using h
  | probeFallback =>
    cases hp : g.pProcessPrng <;> simpa [step, hp] using h
  | dispatch =>
    cases hp : g.pProcessPrng <;> simpa [step, hp] using h
  | dispatchFallback => simpa [step] using h
  | returned n f => simpa [step] using h

theorem sched_probeOnce (host : Host) (p : Process) (i : Nat) (h : ProbeOnce p.globals) :
    ProbeOnce (p.sched host i).globals := by
  unfold Process.sched
  split
  · exact h
  · exact step_probeOnce host _ _ h

/-- For every number of threads and every interleaving, the probe of `InitBCryptCompat` is
entered at most once. -/
theorem probe_runs_at_most_once (host : Host) (n : Nat) (schedule : List Nat) :
    ((Process.cold n).run host schedule).globals.probes ≤ 1 := by
  have key : ∀ (sch : List Nat) (p : Process), ProbeOnce p.globals →
      ProbeOnce (p.run host sch).globals := by
    intro sch
    induction sch with
    | nil => intro p h; exact h
    | cons i rest ih =>
      intro p h
      exact ih _ (sched_probeOnce host p i h)
  have h := key schedule (Process.cold n) (by simp [ProbeOnce, Process.cold, Globals.cold])
  unfold ProbeOnce at h
  rw [h]
  split <;> omega

/-- C9, the race evaluated. On a host that has both the native `ProcessPrng` and the legacy
`SystemFunction036`, two threads make the first calls. Thread 0 wins the exchange on
`bInitialized`; before it has stored anything, thread 1 loses the exchange, returns from
`InitBCryptCompat` at once and reads `pProcessPrng == NULL` and `pRtlGenRandom == NULL`: its
`ProcessPrng` returns `FALSE` with `ERROR_PROC_NOT_FOUND`. Thread 0 then completes the probe
(it ran once, and it leaves the native entry point in `pProcessPrng`) and its own call succeeds
through the native entry point. -/
theorem concurrent_first_call_loser_reads_unpopulated_handles :
    (((Process.cold 2).run ⟨some (fun _ _ => true), some (fun _ _ _ => true)⟩
        [0, 1, 1, 1, 0, 0, 0]).result 1 0 16
      = some (false, { calls := [], nativeCalls := 0,
                       lastError := some ERROR_PROC_NOT_FOUND })) ∧
    (((Process.cold 2).run ⟨some (fun _ _ => true), some (fun _ _ _ => true)⟩
        [0, 1, 1, 1, 0, 0, 0]).result 0 0 16
      = some (true, { calls := [], nativeCalls := 1, lastError := none })) ∧
    ((Process.cold 2).run ⟨some (fun _ _ => true), some (fun _ _ _ => true)⟩
        [0, 1, 1, 1, 0, 0, 0]).globals.probes = 1 ∧
    ((Process.cold 2).run ⟨some (fun _ _ => true), some (fun _ _ _ => true)⟩
        [0, 1, 1, 1, 0, 0, 0]).globals.pProcessPrng.isSome = true := by
  decide

end BCryptCompat
